import Mathlib

/-!
Verification of the claude-desktop-mcp servers (shell server and filesystem
server) against their natural-language specification.

The development embeds the two TypeScript sources shallowly:

* POSIX path resolution (Node's `path.resolve` / `path.normalize` as used by
  the sources, on absolute base directories) is modelled on segment lists;
* `normalizePath` (filesystem server) and the working-directory check of
  `run_command` (shell server) are modelled as pure functions on strings;
* the promise-based execution core of `run_command` is modelled as a state
  machine driven by a serialized trace of Node event-loop callbacks
  (stdout/stderr data, timer expiry, process close, spawn error);
* the filesystem is modelled as a partial map from absolute paths to file
  contents, and the environment as a partial map from names to values.
-/

namespace ClaudeDesktopMcp

/-! ## POSIX path model (Node `path.resolve` / `path.normalize`) -/

/-- Split a path string into its `/`-separated components (chars between
slashes), dropping empty components.  Models the segmentation step of
Node's path normalization. -/
def splitSegsAux : List Char → List Char → List String
  | [], cur => [String.mk cur.reverse]
  | c :: rest, cur =>
    if c = '/' then String.mk cur.reverse :: splitSegsAux rest []
    else splitSegsAux rest (c :: cur)

def splitSegs (s : String) : List String :=
  (splitSegsAux s.data []).filter (fun x => x ≠ "")

/-- Collapse `.` and `..` segments of an absolute path, as Node's
`path.normalize` does: `.` is dropped, `..` pops the previous segment, and a
`..` at the root is dropped. -/
def collapseSegs (acc : List String) : List String → List String
  | [] => acc.reverse
  | seg :: rest =>
    if seg = "." then collapseSegs acc rest
    else if seg = ".." then
      match acc with
      | [] => collapseSegs [] rest
      | _ :: t => collapseSegs t rest
    else collapseSegs (seg :: acc) rest

/-- `path.resolve(base, cand)` for an absolute `base`: if `cand` is absolute
it wins, otherwise it is appended to `base`; the result is normalized and
rendered without a trailing slash.  `path.normalize` of this result is the
result itself, so this also models `path.normalize(path.resolve(base, cand))`
as written in the filesystem server. -/
def resolvePath (base cand : String) : String :=
  let segs :=
    if cand.data.head? = some '/' then splitSegs cand
    else splitSegs base ++ splitSegs cand
  let norm := collapseSegs [] segs
  if norm.isEmpty then "/" else "/" ++ String.intercalate "/" norm

/-- JS `s.startsWith(p)`: `p` is a prefix of `s` (code-unit prefix; on the
char level for our purposes). -/
def strStartsWith (s p : String) : Bool :=
  p.data.isPrefixOf s.data

/-- `normalizePath` from the filesystem server (src/src/arxiv.ts):
resolve the candidate against the base directory, then accept iff the
normalized result starts with the base directory string; the rejection
(`throw`) is modelled as `none`. -/
def normalizePath (baseDir filePath : String) : Option String :=
  let normalizedPath := resolvePath baseDir filePath
  if strStartsWith normalizedPath baseDir then some normalizedPath else none

/-- The specification's notion of confinement: the normalized path is the
root itself or a descendant of the root (root followed by the path
separator is a prefix). -/
def isWithin (root p : String) : Bool :=
  p = root || strStartsWith p (root ++ "/")

/-! ## run_command pre-spawn phase (shell server, src/unnamed/part_000) -/

/-- The `cwd` computation of `run_command`:
`workingDir ? path.resolve(baseDir, workingDir) : baseDir`
(the empty default string is falsy in JS). -/
def resolveCwd (baseDir workingDir : String) : String :=
  if workingDir = "" then baseDir else resolvePath baseDir workingDir

/-- Kind of a filesystem node, for the model of `fs.existsSync` /
`fs.statSync(..).isDirectory()`. -/
inductive FsNode where
  | file
  | dir
deriving DecidableEq, Repr

/-- Outcome of the pre-spawn phase of `run_command`: either an early textual
rejection (no spawn), or proceeding to `spawn` with the computed `cwd`. -/
inductive PreOutcome where
  | reject (msg : String)
  | proceed (cwd : String)
deriving DecidableEq, Repr

/-- The pre-spawn phase of `run_command`: compute `cwd`, check
`cwd.startsWith(baseDir)`, then `fs.existsSync(cwd)` (existence of any node,
not directory-ness), rejecting with the source's error strings. -/
def runCommandPre (baseDir : String) (fsEntry : String → Option FsNode)
    (workingDir : String) : PreOutcome :=
  let cwd := resolveCwd baseDir workingDir
  if !strStartsWith cwd baseDir then
    .reject "Error: Working directory must be within the base directory"
  else if (fsEntry cwd).isNone then
    .reject ("Error: Working directory '" ++ workingDir ++ "' does not exist")
  else
    .proceed cwd

/-! ## run_command execution core (shell server, src/unnamed/part_000)

The promise body of `run_command` is driven by Node event-loop callbacks,
which are serialized; we model one invocation as a fold of a `step` function
over a trace of events.  `resolveOnce` models the semantics of a JS promise's
`resolve`: only the first call takes effect. -/

/-- Mutable state of one `run_command` invocation: the two output buffers,
whether the timeout timer is pending (`timeoutId` set and neither fired nor
cleared), whether `process.kill()` has been called, and the promise's
resolution (`none` = pending). -/
structure ExecState where
  stdout : String
  stderr : String
  timerArmed : Bool
  killed : Bool
  result : Option String
deriving DecidableEq, Repr

/-- Events delivered by the Node event loop to the handlers registered in
`run_command`: a stdout `data` chunk, a stderr `data` chunk, expiry of the
timeout timer, the child's `close` event (exit code, `none` = JS `null`
after a signal kill), and the child's `error` event (spawn failure). -/
inductive ExecEvent where
  | stdoutData (s : String)
  | stderrData (s : String)
  | timerFire
  | close (code : Option Int)
  | spawnError (msg : String)
deriving DecidableEq, Repr

/-- JS promise `resolve`: the first call fixes the value, later calls are
ignored. -/
def resolveOnce (st : ExecState) (r : String) : ExecState :=
  if st.result.isSome then st else { st with result := some r }

/-- The timeout message: `Command timed out after ${timeout}ms`. -/
def timeoutMessage (timeout : Int) : String :=
  "Command timed out after " ++ toString timeout ++ "ms"

/-- The spawn-failure message: `Failed to execute command: ${err.message}`. -/
def spawnErrorMessage (msg : String) : String :=
  "Failed to execute command: " ++ msg

/-- JS string interpolation of the `close` code (`number | null`):
`null` prints as `"null"`. -/
def codeToString : Option Int → String
  | none => "null"
  | some n => toString n

/-- The `close` handler's result text: on code `0`,
`stdout || 'Command executed successfully (no output)'`; otherwise
`` `Command failed with exit code ${code}:\n${stderr || stdout || 'No error output'}` ``
(`||` on strings picks the first non-empty operand). -/
def closeResult (stdout stderr : String) (code : Option Int) : String :=
  if code = some 0 then
    if stdout = "" then "Command executed successfully (no output)" else stdout
  else
    let errorOutput :=
      if stderr = "" then
        if stdout = "" then "No error output" else stdout
      else stderr
    "Command failed with exit code " ++ codeToString code ++ ":\n" ++ errorOutput

/-- One event-loop callback of the `run_command` promise body:
* `data` chunks are appended to the matching buffer (`stdout += data`);
* the timer, if still pending, kills the process and resolves with the
  timeout message (a fired one-shot timer is no longer pending);
* `close` clears the timer (`clearTimeout`) and resolves with
  `closeResult`;
* `error` clears the timer and resolves with the spawn-failure message. -/
def step (timeout : Int) (st : ExecState) : ExecEvent → ExecState
  | .stdoutData s => { st with stdout := st.stdout ++ s }
  | .stderrData s => { st with stderr := st.stderr ++ s }
  | .timerFire =>
    if st.timerArmed then
      resolveOnce { st with timerArmed := false, killed := true }
        (timeoutMessage timeout)
    else st
  | .close code =>
    resolveOnce { st with timerArmed := false }
      (closeResult st.stdout st.stderr code)
  | .spawnError msg =>
    resolveOnce { st with timerArmed := false } (spawnErrorMessage msg)

/-- State right after `spawn`: empty buffers, pending promise, and the timer
armed iff `timeout > 0` (`if (timeout > 0) { timeoutId = setTimeout(...) }`). -/
def initState (timeout : Int) : ExecState :=
  { stdout := "", stderr := "", timerArmed := decide (0 < timeout),
    killed := false, result := none }

/-- One `run_command` invocation under a given serialized event trace. -/
def runTrace (timeout : Int) (evs : List ExecEvent) : ExecState :=
  evs.foldl (step timeout) (initState timeout)

/-- The effective timeout: the zod-validated argument defaults to 30000 when
omitted. -/
def effectiveTimeout (timeout : Option Int) : Int :=
  timeout.getD 30000

/-- Events that unconditionally resolve the promise (the child's `close` and
`error` handlers). -/
def isCompletionEvent : ExecEvent → Bool
  | .close _ => true
  | .spawnError _ => true
  | _ => false

/-- Stream-data events (the `data` handlers of stdout and stderr). -/
def isDataEvent : ExecEvent → Bool
  | .stdoutData _ => true
  | .stderrData _ => true
  | _ => false

/-- Total stdout text accumulated over a trace (in delivery order). -/
def accumOut : List ExecEvent → String
  | [] => ""
  | .stdoutData s :: rest => s ++ accumOut rest
  | _ :: rest => accumOut rest

/-- Total stderr text accumulated over a trace (in delivery order). -/
def accumErr : List ExecEvent → String
  | [] => ""
  | .stderrData s :: rest => s ++ accumErr rest
  | _ :: rest => accumErr rest

/-! ## Environment model (getShellEnv / get_env, shell server) -/

/-- An environment: a partial map from variable names to string values
(`undefined` = `none`). -/
abbrev Env := String → Option String

/-- JS truthiness test `!env.PATH` for a string-or-undefined value: true when
the variable is undefined or its value is the empty string. -/
def pathFalsy : Option String → Bool
  | none => true
  | some v => v = ""

/-- The `PATH` value `getShellEnv` synthesizes: the fixed system directories
followed by the home-relative tool directories, joined with `:` exactly as
the source appends them (`path.join(homeDir, sub)` on a normal absolute
`homeDir` is `homeDir ++ "/" ++ sub`). -/
def synthPath (homeDir : String) : String :=
  "/usr/local/bin:/usr/bin:/bin:/usr/sbin:/sbin"
    ++ ":" ++ homeDir ++ "/.local/bin"
    ++ ":" ++ homeDir ++ "/bin"
    ++ ":" ++ homeDir ++ "/.nvm/current/bin"
    ++ ":" ++ homeDir ++ "/.bun/bin"
    ++ ":" ++ homeDir ++ "/.deno/bin"
    ++ ":" ++ homeDir ++ "/.cargo/bin"

/-- `getShellEnv`: copy `process.env`; if `!env.PATH` (undefined or empty),
set `PATH` to the synthesized default.  The copy `{ ...process.env }` is a
shallow spread, so every other variable maps exactly as in `process.env`. -/
def getShellEnv (homeDir : String) (procEnv : Env) : Env :=
  if pathFalsy (procEnv ("PATH")) then
    fun name => if name = "PATH" then some (synthPath homeDir) else procEnv name
  else
    procEnv

/-- `get_env`: look the name up in `getShellEnv()`'s result; `undefined`
yields the fixed "is not set" message, otherwise the value itself. -/
def get_env (homeDir : String) (procEnv : Env) (name : String) : String :=
  match getShellEnv homeDir procEnv name with
  | none => "Environment variable '" ++ name ++ "' is not set"
  | some v => v

/-! ## Filesystem tool set (filesystem server, src/src/arxiv.ts)

The filesystem is a partial map from normalized absolute paths to regular
file contents (directories are implicit; `write_file`'s recursive parent
creation always succeeds in this model).  The unified-diff generator
(`diffLib.createPatch`, an external library the spec scopes out) is taken as
an abstract parameter `createPatch filename oldContent newContent`
(the two header arguments are the constants 'Old' and 'New'). -/

abbrev FS := String → Option String

/-- Point update of the filesystem map (the effect of `fs.writeFileSync`). -/
def fsUpdate (fs : FS) (p content : String) : FS :=
  fun q => if q = p then some content else fs q

/-- `write_file`: normalize the path (a confinement rejection is caught and
returned as text), create parents as needed, write the content, report
success. -/
def write_file (baseDir : String) (fs : FS) (filePath content : String) :
    FS × String :=
  match normalizePath baseDir filePath with
  | none =>
    (fs, "Error writing file: Access denied: " ++ filePath
      ++ " is outside the base directory")
  | some np =>
    (fsUpdate fs np content,
      "File '" ++ filePath ++ "' has been written successfully")

/-- `read_file`: normalize the path, then return the content if the path is
an existing regular file, else the not-found message (non-files are not
represented in the `FS` map). -/
def read_file (baseDir : String) (fs : FS) (filePath : String) : String :=
  match normalizePath baseDir filePath with
  | none =>
    "Error reading file: Access denied: " ++ filePath
      ++ " is outside the base directory"
  | some np =>
    match fs np with
    | none => "Error: File '" ++ filePath ++ "' does not exist"
    | some content => content

/-- `edit_file`: normalize the path; if the target does not exist return the
not-found message without writing; otherwise read the old content, build the
unified diff, overwrite with the new content, and return the success message
with the diff appended. -/
def edit_file (createPatch : String → String → String → String)
    (baseDir : String) (fs : FS) (filePath newContent : String) :
    FS × String :=
  match normalizePath baseDir filePath with
  | none =>
    (fs, "Error editing file: Access denied: " ++ filePath
      ++ " is outside the base directory")
  | some np =>
    match fs np with
    | none => (fs, "Error: File '" ++ filePath ++ "' does not exist")
    | some oldContent =>
      (fsUpdate fs np newContent,
        "File '" ++ filePath ++ "' has been edited successfully.\n\nChanges:\n"
          ++ createPatch filePath oldContent newContent)

/-! ## Concrete instances used in witnesses and counterexamples -/

/-- Filesystem oracle in which `/a` is a directory and `/a/f` a regular
file. -/
def fsWithFile : String → Option FsNode :=
  fun p =>
    if p = "/a" then some FsNode.dir
    else if p = "/a/f" then some FsNode.file
    else none

/-- A process environment whose `PATH` is present but set to the empty
string. -/
def envEmptyPath : Env :=
  fun n => if n = "PATH" then some ("") else none

/-- A process environment with a non-empty `PATH`. -/
def envWithPath : Env :=
  fun n => if n = "PATH" then some ("/bin") else none

/-- A concrete stand-in for the abstract diff generator. -/
def concatPatch : String → String → String → String :=
  fun filename oldContent newContent =>
    filename ++ "|" ++ oldContent ++ "|" ++ newContent

/-- A one-file filesystem: `/a/f` contains "old". -/
def fsOneFile : FS :=
  fun p => if p = "/a/f" then some ("old") else none

/-- The empty filesystem. -/
def emptyFS : FS :=
  fun _ => none

end ClaudeDesktopMcp

namespace ClaudeDesktopMcp

/-! ## Theorems -/

/-! ### Shared lemmas about the execution core -/

theorem resolveOnce_isSome (st : ExecState) (r : String) :
    ((resolveOnce st r).result).isSome = true := by
  unfold resolveOnce
  split <;> simp_all

theorem step_preserves_result (t : Int) (st : ExecState) (e : ExecEvent)
    (r : String) (h : st.result = some r) : (step t st e).result = some r := by
  cases e with
  | timerFire =>
    simp only [step]
    split
    · simp [resolveOnce, h]
    · exact h
  | stdoutData s => simpa [step] using h
  | stderrData s => simpa [step] using h
  | close code => simp [step, resolveOnce, h]
  | spawnError msg => simp [step, resolveOnce, h]

theorem foldl_preserves_result (t : Int) (evs : List ExecEvent)
    (st : ExecState) (r : String) (h : st.result = some r) :
    (evs.foldl (step t) st).result = some r := by
  induction evs generalizing st with
  | nil => exact h
  | cons e rest ih => exact ih _ (step_preserves_result t st e r h)

theorem completion_resolves (t : Int) (st : ExecState) (e : ExecEvent)
    (hc : isCompletionEvent e = true) :
    ((step t st e).result).isSome = true := by
  cases e <;> simp [isCompletionEvent] at hc <;>
    simp [step, resolveOnce_isSome]

theorem foldl_completion (t : Int) (evs : List ExecEvent) (st : ExecState)
    (h : ∃ e ∈ evs, isCompletionEvent e = true) :
    ((evs.foldl (step t) st).result).isSome = true := by
  induction evs generalizing st with
  | nil => simp at h
  | cons e rest ih =>
    obtain ⟨e0, he0, hc⟩ := h
    rw [List.foldl_cons]
    rcases List.mem_cons.mp he0 with h1 | h1
    · subst h1
      obtain ⟨r, hr⟩ := Option.isSome_iff_exists.mp (completion_resolves t st e0 hc)
      rw [foldl_preserves_result t rest _ r hr]
      rfl
    · exact ih _ ⟨e0, h1, hc⟩

theorem foldl_data_events (t : Int) (chunks : List ExecEvent) (st : ExecState)
    (h : ∀ e ∈ chunks, isDataEvent e = true) :
    chunks.foldl (step t) st =
      { st with stdout := st.stdout ++ accumOut chunks,
                stderr := st.stderr ++ accumErr chunks } := by
  induction chunks generalizing st with
  | nil => simp [accumOut, accumErr, String.append_empty]
  | cons e rest ih =>
    have hrest : ∀ e ∈ rest, isDataEvent e = true :=
      fun x hx => h x (List.mem_cons_of_mem _ hx)
    have he : isDataEvent e = true := h e (List.mem_cons_self _ _)
    rw [List.foldl_cons]
    cases e with
    | stdoutData s =>
      rw [ih _ hrest]
      simp [step, accumOut, accumErr, String.append_assoc]
    | stderrData s =>
      rw [ih _ hrest]
      simp [step, accumOut, accumErr, String.append_assoc]
    | timerFire => simp [isDataEvent] at he
    | close code => simp [isDataEvent] at he
    | spawnError msg => simp [isDataEvent] at he

/-- **C2.** Every `run_command` execution produces exactly one result and no
exception escapes: (i) any trace containing a `close` or spawn-`error` event
leaves the promise resolved (the timeout resolves it too, see the third
conjunct, and `step` is total, so every failure path yields text rather than
a fault); (ii) once resolved to `r`, any further events — e.g. a `close`
arriving after the timeout already killed the process — leave the resolution
at `r`, so only one resolution is ever observed; (iii) a pending timer's
expiry always resolves the promise. -/
theorem run_command_single_resolution (t : Int) (evs more : List ExecEvent) :
    ((∃ e ∈ evs, isCompletionEvent e = true) →
        ((runTrace t evs).result).isSome = true)
      ∧ (∀ r, (runTrace t evs).result = some r →
          (runTrace t (evs ++ more)).result = some r)
      ∧ (∀ st : ExecState, st.timerArmed = true →
          ((step t st ExecEvent.timerFire).result).isSome = true) := by
  refine ⟨fun h => foldl_completion t evs (initState t) h,
    fun r h => ?_, fun st hst => ?_⟩
  · unfold runTrace at h ⊢
    rw [List.foldl_append]
    exact foldl_preserves_result t more _ r h
  · simp only [step, hst, if_true]
    exact resolveOnce_isSome _ _

/-- Witness for C2: a concrete trace in which the command exits 0 and the
timer fires afterwards — the promise is resolved exactly once, to the
success text. -/
theorem run_command_single_resolution_witness :
    ((runTrace 30000 [ExecEvent.close (some 0)]).result).isSome = true
      ∧ (runTrace 30000
            ([ExecEvent.close (some 0)] ++ [ExecEvent.timerFire])).result
          = some ("Command executed successfully (no output)")
      ∧ ((step 30000 (initState 30000) ExecEvent.timerFire).result).isSome
          = true := by
  refine ⟨?_, ?_, ?_⟩
  · exact (run_command_single_resolution 30000 [ExecEvent.close (some 0)]
      []).1 ⟨ExecEvent.close (some 0), by decide, by decide⟩
  · exact (run_command_single_resolution 30000 [ExecEvent.close (some 0)]
      [ExecEvent.timerFire]).2.1 ("Command executed successfully (no output)")
      (by decide)
  · exact (run_command_single_resolution 30000 [] []).2.2
      (initState 30000) (by decide)

/-- **C3.** A spawned process that closes with a numeric exit code resolves,
when the code is `0`, to the accumulated stdout text (or the fixed "no
output" placeholder when stdout is empty); when the code is nonzero, to the
accumulated stderr text if non-empty, else the stdout text, else a fixed
placeholder, prefixed with the numeric exit code. -/
theorem close_exit_result (t : Int) (chunks : List ExecEvent) (code : Int)
    (h : ∀ e ∈ chunks, isDataEvent e = true) :
    (code = 0 →
        (runTrace t (chunks ++ [ExecEvent.close (some code)])).result =
          some (if accumOut chunks = "" then
                  "Command executed successfully (no output)"
                else accumOut chunks))
      ∧ (code ≠ 0 →
        (runTrace t (chunks ++ [ExecEvent.close (some code)])).result =
          some ("Command failed with exit code " ++ toString code ++ ":\n"
            ++ (if accumErr chunks = "" then
                  (if accumOut chunks = "" then "No error output"
                   else accumOut chunks)
                else accumErr chunks))) := by
  have hmain : (runTrace t (chunks ++ [ExecEvent.close (some code)])).result
      = some (closeResult (accumOut chunks) (accumErr chunks) (some code)) := by
    unfold runTrace
    rw [List.foldl_append, foldl_data_events t chunks _ h]
    simp [initState, step, resolveOnce, String.empty_append]
  constructor
  · intro hc
    subst hc
    rw [hmain]
    simp [closeResult]
  · intro hc
    rw [hmain]
    simp [closeResult, codeToString, hc]

/-- Witness for C3: one stderr chunk, exit code 7. -/
theorem close_exit_result_witness :
    (runTrace 30000
        ([ExecEvent.stderrData ("boom")] ++ [ExecEvent.close (some 7)])).result
      = some ("Command failed with exit code 7:\nboom") := by
  exact ((close_exit_result 30000 [ExecEvent.stderrData ("boom")] 7
    (by decide)).2 (by decide)).trans (by decide)

/-- **C4.** The timer is armed iff the effective timeout (default 30000 when
omitted; 0 or negative disables it) is positive; when an armed timer fires
before process exit, the child is killed and the result is exactly the fixed
timeout notice naming the configured duration — any stdout/stderr
accumulated before termination is absent from the result. -/
theorem timeout_behavior (tO : Option Int) (chunks : List ExecEvent)
    (h : ∀ e ∈ chunks, isDataEvent e = true) :
    (initState (effectiveTimeout tO)).timerArmed
        = decide (0 < effectiveTimeout tO)
      ∧ effectiveTimeout none = 30000
      ∧ (0 < effectiveTimeout tO →
          (runTrace (effectiveTimeout tO)
              (chunks ++ [ExecEvent.timerFire])).result
            = some (timeoutMessage (effectiveTimeout tO))
          ∧ (runTrace (effectiveTimeout tO)
              (chunks ++ [ExecEvent.timerFire])).killed = true) := by
  refine ⟨rfl, rfl, fun ht => ?_⟩
  unfold runTrace
  rw [List.foldl_append, foldl_data_events _ chunks _ h]
  simp [initState, step, resolveOnce, ht]

/-- Witness for C4: timeout omitted (effective 30000), one partial stdout
chunk before the timer fires — the result is the bare timeout notice and the
process was killed. -/
theorem timeout_behavior_witness :
    (runTrace (effectiveTimeout none)
        ([ExecEvent.stdoutData ("partial")] ++ [ExecEvent.timerFire])).result
      = some (timeoutMessage (effectiveTimeout none))
    ∧ (runTrace (effectiveTimeout none)
        ([ExecEvent.stdoutData ("partial")] ++ [ExecEvent.timerFire])).killed
      = true := by
  exact (timeout_behavior none [ExecEvent.stdoutData ("partial")]
    (by decide)).2.2 (by decide)

/-- **C10.** If the `close` event delivers any code other than `0` —
including the `null` code of a signal-killed child — while the promise is
still pending, the resolution is the failure-branch message embedding that
code verbatim (`null` prints as "null"); the success branch is taken only
for code exactly `0`. -/
theorem close_nonzero_null (t : Int) (st : ExecState) (code : Option Int)
    (hres : st.result = none) :
    ((step t st (ExecEvent.close code)).result
        = some (closeResult st.stdout st.stderr code))
      ∧ (code ≠ some 0 →
          closeResult st.stdout st.stderr code
            = "Command failed with exit code " ++ codeToString code ++ ":\n"
                ++ (if st.stderr = "" then
                      (if st.stdout = "" then "No error output" else st.stdout)
                    else st.stderr))
      ∧ codeToString none = "null"
      ∧ (∀ out err : String, closeResult out err (some 0)
          = (if out = "" then "Command executed successfully (no output)"
             else out)) := by
  refine ⟨?_, fun hc => ?_, rfl, fun out err => ?_⟩
  · simp [step, resolveOnce, hres]
  · simp [closeResult, hc]
  · simp [closeResult]

/-- Witness for C10: a signal-killed child (`close` code `null`) with "boom"
on stderr, while the promise is pending — the failure message reports the
code as "null". -/
theorem close_nonzero_null_witness :
    ((step 0 (ExecState.mk ("") ("boom") false false none)
          (ExecEvent.close none)).result
        = some (closeResult ("") ("boom") none))
      ∧ closeResult ("") ("boom") none
          = "Command failed with exit code null:\nboom" := by
  have h := close_nonzero_null 0 (ExecState.mk ("") ("boom") false false none)
    none rfl
  exact ⟨h.1, (h.2.1 (by decide)).trans (by decide)⟩

/-- **C1.** The claim states the confinement check never accepts a path
outside the root.  The code checks only `startsWith(baseDir)` without
requiring a path-separator boundary, contradicting its own doc comment
("throws on an attempt to access outside the base directory"): with base
directory `/a/b`, the candidate `../bc` resolves to `/a/bc`, which passes the
`startsWith` check in both `normalizePath` and `run_command` although it lies
outside `/a/b`. -/
theorem normalizePath_escape_bug :
    normalizePath ("/a/b") ("../bc") = some ("/a/bc")
      ∧ isWithin ("/a/b") ("/a/bc") = false
      ∧ resolveCwd ("/a/b") ("../bc") = "/a/bc"
      ∧ strStartsWith ("/a/bc") ("/a/b") = true := by
  refine ⟨?_, ?_, ?_, ?_⟩ <;> decide

/-- **C5 counterexample.** The claim requires an error without spawning
whenever the resolved working directory "does not exist as a directory", but
`run_command` checks only `fs.existsSync(cwd)`: a `cwd` that exists as a
regular file (here `/a/f`) passes both pre-spawn checks and the code
proceeds to `spawn`. -/
theorem run_command_cwd_counterexample :
    fsWithFile ("/a/f") = some FsNode.file
      ∧ fsWithFile ("/a/f") ≠ some FsNode.dir
      ∧ runCommandPre ("/a") fsWithFile ("f") = PreOutcome.proceed ("/a/f") := by
  refine ⟨rfl, by decide, by decide⟩

/-- **C5 (amended).** If the resolved working directory fails the
`startsWith` confinement check or does not exist at all, `run_command`
returns a descriptive error string and never reaches the `spawn` call.  (An
existing non-directory, by contrast, passes these checks and proceeds to
`spawn`, whose failure surfaces through the spawn-error text path.) -/
theorem run_command_cwd_reject (baseDir workingDir : String)
    (fsEntry : String → Option FsNode)
    (h : strStartsWith (resolveCwd baseDir workingDir) baseDir = false
        ∨ fsEntry (resolveCwd baseDir workingDir) = none) :
    ∃ msg, runCommandPre baseDir fsEntry workingDir
      = PreOutcome.reject msg := by
  unfold runCommandPre
  rcases h with h | h
  · simp [h]
  · cases hs : strStartsWith (resolveCwd baseDir workingDir) baseDir
    · simp [hs]
    · simp [hs, h]

/-- Witness for the amended C5: a missing working directory is rejected
before spawn. -/
theorem run_command_cwd_reject_witness :
    ∃ msg, runCommandPre ("/a") fsWithFile ("missing")
      = PreOutcome.reject msg :=
  run_command_cwd_reject ("/a") ("missing") fsWithFile (Or.inr (by decide))

/-- **C6 counterexample.** The claim says an existing `PATH` is never
changed, but the JS truthiness test `!env.PATH` also fires for a `PATH` set
to the empty string, which `getShellEnv` then overwrites with the
synthesized default. -/
theorem getShellEnv_empty_path_counterexample :
    envEmptyPath ("PATH") = some ("")
      ∧ getShellEnv ("/home/u") envEmptyPath ("PATH")
          = some (synthPath ("/home/u"))
      ∧ getShellEnv ("/home/u") envEmptyPath ("PATH")
          ≠ envEmptyPath ("PATH") := by
  refine ⟨rfl, by decide, by decide⟩

/-- **C6 (amended).** `getShellEnv` returns the copied environment with
every variable unchanged whenever `PATH` is present and non-empty; it
synthesizes `PATH` from the fixed system and home-relative tool directories
iff `PATH` is absent *or empty*; and in every case no variable other than
`PATH` is added, modified, or removed. -/
theorem getShellEnv_amended (homeDir : String) (procEnv : Env) :
    (∀ v, procEnv ("PATH") = some v → v ≠ "" →
        getShellEnv homeDir procEnv = procEnv)
      ∧ (procEnv ("PATH") = none ∨ procEnv ("PATH") = some "" →
          getShellEnv homeDir procEnv ("PATH") = some (synthPath homeDir))
      ∧ (∀ name, name ≠ "PATH" →
          getShellEnv homeDir procEnv name = procEnv name) := by
  refine ⟨fun v hv hne => ?_, fun h => ?_, fun name hn => ?_⟩
  · have hp : pathFalsy (procEnv ("PATH")) = false := by
      rw [hv]; simp [pathFalsy, hne]
    simp [getShellEnv, hp]
  · rcases h with h | h <;> simp [getShellEnv, pathFalsy, h]
  · cases hp : pathFalsy (procEnv ("PATH")) <;>
      simp [getShellEnv, hp, hn]

/-- Witness for the amended C6: a non-empty `PATH` environment is returned
unchanged; an empty-`PATH` environment gets the synthesized `PATH`; other
variables pass through. -/
theorem getShellEnv_amended_witness :
    getShellEnv ("/h") envWithPath = envWithPath
      ∧ getShellEnv ("/h") envEmptyPath ("PATH") = some (synthPath ("/h"))
      ∧ getShellEnv ("/h") envWithPath ("HOME") = envWithPath ("HOME") := by
  refine ⟨(getShellEnv_amended ("/h") envWithPath).1 ("/bin") rfl (by decide),
    (getShellEnv_amended ("/h") envEmptyPath).2.1 (Or.inr rfl),
    (getShellEnv_amended ("/h") envWithPath).2.2 ("HOME") (by decide)⟩

/-- **C7.** `edit_file` on a confined path whose target does not exist
returns the not-found message and leaves the filesystem untouched;
on an existing file it overwrites it with the new content and returns the
success message together with the unified diff of old versus new content. -/
theorem edit_file_spec (createPatch : String → String → String → String)
    (baseDir : String) (fs : FS) (filePath newContent np : String)
    (hnp : normalizePath baseDir filePath = some np) :
    (fs np = none →
        edit_file createPatch baseDir fs filePath newContent
          = (fs, "Error: File '" ++ filePath ++ "' does not exist"))
      ∧ (∀ oldContent, fs np = some oldContent →
          edit_file createPatch baseDir fs filePath newContent
              = (fsUpdate fs np newContent,
                  "File '" ++ filePath
                    ++ "' has been edited successfully.\n\nChanges:\n"
                    ++ createPatch filePath oldContent newContent)
            ∧ (edit_file createPatch baseDir fs filePath newContent).1 np
                = some newContent) := by
  refine ⟨fun h => ?_, fun old hold => ?_⟩
  · unfold edit_file
    rw [hnp]
    simp [h]
  · unfold edit_file
    rw [hnp]
    simp [hold, fsUpdate]

/-- Witness for C7: editing the missing `/a/missing` changes nothing;
editing the existing `/a/f` overwrites it and reports the diff. -/
theorem edit_file_spec_witness :
    edit_file concatPatch ("/a") fsOneFile ("missing") ("new")
        = (fsOneFile, "Error: File 'missing' does not exist")
      ∧ (edit_file concatPatch ("/a") fsOneFile ("f") ("new")
            = (fsUpdate fsOneFile ("/a/f") ("new"),
                "File 'f' has been edited successfully.\n\nChanges:\n"
                  ++ concatPatch ("f") ("old") ("new"))
          ∧ (edit_file concatPatch ("/a") fsOneFile ("f") ("new")).1 ("/a/f")
              = some ("new")) := by
  refine ⟨(edit_file_spec concatPatch ("/a") fsOneFile ("missing") ("new")
      ("/a/missing") (by decide)).1 (by decide),
    (edit_file_spec concatPatch ("/a") fsOneFile ("f") ("new")
      ("/a/f") (by decide)).2 ("old") (by decide)⟩

/-- **C8.** For every path accepted by the confinement check and every
content string, writing the content and then reading the same path returns
exactly that content. -/
theorem write_read_roundtrip (baseDir : String) (fs : FS)
    (filePath content : String)
    (h : (normalizePath baseDir filePath).isSome = true) :
    read_file baseDir (write_file baseDir fs filePath content).1 filePath
      = content := by
  obtain ⟨np, hnp⟩ := Option.isSome_iff_exists.mp h
  unfold write_file read_file
  rw [hnp]
  simp [fsUpdate]

/-- Witness for C8: write "hello" to `b/c.txt` under root `/a`, read it
back. -/
theorem write_read_roundtrip_witness :
    read_file ("/a") (write_file ("/a") emptyFS ("b/c.txt") ("hello")).1
        ("b/c.txt")
      = "hello" :=
  write_read_roundtrip ("/a") emptyFS ("b/c.txt") ("hello") (by decide)

/-- **C9.** `get_env` invoked with the name `PATH` always returns a value
string, never the "is not set" message: the environment assembled by
`getShellEnv` maps `PATH` to `some` value for every process environment, so
the `undefined` branch of `get_env` is unreachable for `PATH`. -/
theorem get_env_path_always_set (homeDir : String) (procEnv : Env) :
    ∃ v, getShellEnv homeDir procEnv ("PATH") = some v
      ∧ get_env homeDir procEnv ("PATH") = v := by
  cases hv : procEnv ("PATH") with
  | none =>
    exact ⟨synthPath homeDir, by simp [getShellEnv, pathFalsy, hv],
      by simp [get_env, getShellEnv, pathFalsy, hv]⟩
  | some v =>
    by_cases hve : v = ""
    · subst hve
      exact ⟨synthPath homeDir, by simp [getShellEnv, pathFalsy, hv],
        by simp [get_env, getShellEnv, pathFalsy, hv]⟩
    · exact ⟨v, by simp [getShellEnv, pathFalsy, hv, hve],
        by simp [get_env, getShellEnv, pathFalsy, hv, hve]⟩

end ClaudeDesktopMcp
